import Mathlib

/-!
Verification of the DigikalaBot crawler core (src/crawler.py).

The development shallowly embeds the crawler: `clean_text` (text
normalization), the review extractor `get_product_review`, the fetch
functions `Crawler.get_products` / `Crawler.get_product_details` (HTTP
modelled as an environment mapping request URLs to outcomes), and the
orchestrator `Crawler.run` (modelled as the list of boundary events it
emits: requests, persistence-sink calls, log messages).
-/

namespace DigikalaBot

/-- The set of characters matched by Python's regex class `\s` on `str`
patterns, which coincides with the characters for which `str.isspace()`
holds (used by `str.strip()`). -/
def isPySpace (c : Char) : Bool :=
  let n := c.toNat
  decide ((9 ≤ n ∧ n ≤ 13) ∨ (28 ≤ n ∧ n ≤ 31) ∨ n = 32 ∨ n = 0x85 ∨
    n = 0xA0 ∨ n = 0x1680 ∨ (0x2000 ≤ n ∧ n ≤ 0x200A) ∨ n = 0x2028 ∨
    n = 0x2029 ∨ n = 0x202F ∨ n = 0x205F ∨ n = 0x3000)

/-- The zero-width non-joiner character U+200C. -/
def zwnj : Char := '\u200C'

/-- Models `text.replace` deleting U+200C: removes every occurrence of the
zero-width non-joiner. -/
def removeZWNJ (l : List Char) : List Char :=
  l.filter (fun c => !(c == zwnj))

/-- Worker for `collapseWS`. The boolean records whether the scanner is
inside a whitespace run whose replacement space has already been emitted. -/
def collapseAux : Bool → List Char → List Char
  | _, [] => []
  | inRun, c :: rest =>
    if isPySpace c then
      if inRun then collapseAux true rest
      else ' ' :: collapseAux true rest
    else c :: collapseAux false rest

/-- Models `re.sub(r"\s+", " ", text)`: each maximal run of whitespace
characters is replaced by a single space. -/
def collapseWS (l : List Char) : List Char := collapseAux false l

/-- Models `str.strip()`: removes leading and trailing whitespace. -/
def stripWS (l : List Char) : List Char :=
  ((l.dropWhile isPySpace).reverse.dropWhile isPySpace).reverse

/-- `Crawler.clean_text` from src/crawler.py: removes the zero-width
non-joiner, collapses whitespace runs to a single space, strips the ends. -/
def clean_text (text : String) : String :=
  String.mk (stripWS (collapseWS (removeZWNJ text.data)))

/-- Models `str.strip()` on `String` (used for the final attributes value). -/
def pyStrip (s : String) : String := String.mk (stripWS s.data)

/-- The maximal whitespace-free chunks of a character list, in order
(whitespace-only input yields no chunks). Spec-side notion used to state
what normalization does. -/
def wordsWS : List Char → List (List Char)
  | [] => []
  | c :: rest =>
    if isPySpace c then wordsWS rest
    else (c :: rest.takeWhile (fun d => !isPySpace d)) ::
      wordsWS (rest.dropWhile (fun d => !isPySpace d))
termination_by l => l.length
decreasing_by
  · simp only [List.length_cons]
    exact Nat.lt_succ_of_le (Nat.le_refl _)
  · simp only [List.length_cons]
    exact Nat.lt_succ_of_le (List.dropWhile_sublist _).length_le

/-- Joins chunks with a single space between consecutive chunks. -/
def joinWords : List (List Char) → List Char
  | [] => []
  | [w] => w
  | w :: w2 :: rest => w ++ ' ' :: joinWords (w2 :: rest)

/-- The specification's description of `normalize`: remove every zero-width
non-joiner, replace each maximal whitespace run by one space, and trim the
ends — equivalently, join the whitespace-free chunks with single spaces. -/
def normalize_spec (s : String) : String :=
  String.mk (joinWords (wordsWS (removeZWNJ s.data)))

/-- No occurrence of the zero-width non-joiner in a string. -/
def noZWNJ (s : String) : Bool := s.data.all (fun c => !(c == zwnj))

/-- No two consecutive whitespace characters. -/
def noWSRun : List Char → Bool
  | a :: b :: rest => (!(isPySpace a && isPySpace b)) && noWSRun (b :: rest)
  | _ => true

/-- The first character, if any, is not whitespace. -/
def headNonWS : List Char → Bool
  | [] => true
  | c :: _ => !isPySpace c

/-- The last character, if any, is not whitespace. -/
def lastNonWS (l : List Char) : Bool := headNonWS l.reverse

/-- Removes trailing whitespace (proof-side decomposition of `stripWS`:
`stripWS l = stripR (l.dropWhile isPySpace)` definitionally). -/
def stripR (l : List Char) : List Char :=
  (l.reverse.dropWhile isPySpace).reverse

/-- What `joinWords` appends after its first chunk. -/
def tailJoin : List (List Char) → List Char
  | [] => []
  | w :: rest => ' ' :: joinWords (w :: rest)

/-- JSON values as decoded by `response.json()`. Numbers are modelled as
integers (no claim involves fractional values). -/
inductive Json where
  | null : Json
  | bool (b : Bool) : Json
  | num (n : Int) : Json
  | str (s : String) : Json
  | arr (elems : List Json) : Json
  | obj (fields : List (String × Json)) : Json

mutual

/-- Structural size of a JSON value, used as recursion fuel for `pyReprFuel`. -/
def jsonFuelSize : Json → Nat
  | .null => 1
  | .bool _ => 1
  | .num _ => 1
  | .str _ => 1
  | .arr xs => 1 + jsonListFuelSize xs
  | .obj fs => 1 + jsonFieldsFuelSize fs

/-- Structural size of a list of JSON values. -/
def jsonListFuelSize : List Json → Nat
  | [] => 0
  | j :: rest => jsonFuelSize j + jsonListFuelSize rest

/-- Structural size of JSON object fields. -/
def jsonFieldsFuelSize : List (String × Json) → Nat
  | [] => 0
  | kv :: rest => jsonFuelSize kv.2 + jsonFieldsFuelSize rest

end

/-- First-match lookup in an association list (Python dicts cannot hold a
key twice, so the representation is first-match-determined). -/
def lookupField {α : Type} : List (String × α) → String → Option α
  | [], _ => none
  | (k, v) :: rest, key => if k == key then some v else lookupField rest key

/-- Models `d.get(key, default)`. A non-dict receiver has no `get`
attribute, so the call raises (`none`). -/
def dictGet : Json → String → Json → Option Json
  | .obj fs, key, dflt => some ((lookupField fs key).getD dflt)
  | _, _, _ => none

/-- Models `d[key]` with a string key: on a dict a missing key raises
`KeyError`; a string-keyed subscript of any other value raises. -/
def pyIndex : Json → String → Option Json
  | .obj fs, key => lookupField fs key
  | _, _ => none

/-- Models `key in d` for a mapping receiver. (In the extractor the
receiver has always passed a `.get` call, hence is a mapping.) -/
def pyContainsKey : Json → String → Bool
  | .obj fs, key => (lookupField fs key).isSome
  | _, _ => false

/-- The argument of `clean_text` must be a `str`; any other value has no
`replace` attribute and the call raises. -/
def asStr : Json → Option String
  | .str s => some s
  | _ => none

/-- Models Python iteration: lists yield their elements, strings their
characters (as one-character strings), dicts their keys; other values are
not iterable and raise `TypeError`. -/
def pyIter : Json → Option (List Json)
  | .arr xs => some xs
  | .str s => some (s.data.map (fun c => Json.str (String.mk [c])))
  | .obj fs => some (fs.map (fun kv => Json.str kv.1))
  | _ => none

/-- Models `len(x)`: defined for lists, strings and dicts; raises
`TypeError` otherwise. -/
def pyLen : Json → Option Nat
  | .arr xs => some xs.length
  | .str s => some s.data.length
  | .obj fs => some fs.length
  | _ => none

/-- Python truthiness of a JSON-decoded value: `None`, `False`, `0`, the
empty string, the empty list and the empty dict are falsy. -/
def pyTruthy : Json → Bool
  | .null => false
  | .bool b => b
  | .num n => !(n == 0)
  | .str s => !(s.data.isEmpty)
  | .arr xs => !xs.isEmpty
  | .obj fs => !fs.isEmpty

/-- A single-quote character (for Python `repr` of strings). -/
def squote : Char := '\''

/-- Joins rendered items with a comma and a space. -/
def joinByCommaSpace : List String → String
  | [] => ""
  | [v] => v
  | v :: v2 :: rest => v ++ ", " ++ joinByCommaSpace (v2 :: rest)

/-- Fuel-bounded rendering of nested values, modelling Python `repr` for
JSON-decoded values (string escaping inside containers is not reproduced;
no claim exercises container-valued ids). -/
def pyReprFuel : Nat → Json → String
  | _, .null => "None"
  | _, .bool true => "True"
  | _, .bool false => "False"
  | _, .num n => toString n
  | _, .str s => String.mk [squote] ++ s ++ String.mk [squote]
  | 0, _ => ""
  | n + 1, .arr xs => "[" ++ joinByCommaSpace (xs.map (pyReprFuel n)) ++ "]"
  | n + 1, .obj fs =>
    "\x7b" ++ joinByCommaSpace (fs.map
      (fun kv => String.mk [squote] ++ kv.1 ++ String.mk [squote] ++ ": " ++
        pyReprFuel n kv.2)) ++ "\x7d"

/-- Models `str(x)` / `format(x)` as used when substituting a value into a
URL template: strings pass through, scalars print the Python way,
containers render via `repr` of their parts. -/
def pyStr : Json → String
  | .str s => s
  | .null => "None"
  | .bool true => "True"
  | .bool false => "False"
  | .num n => toString n
  | j => pyReprFuel (jsonFuelSize j) j

/-- Models `" ".join(items)`. -/
def joinBySpace : List String → String
  | [] => ""
  | [v] => v
  | v :: v2 :: rest => v ++ " " ++ joinBySpace (v2 :: rest)

/-- Maps `asStr` over the iterated values (the generator inside
`" ".join(...)`); any non-string value raises. -/
def asStrList : List Json → Option (List String)
  | [] => some []
  | j :: rest =>
    match asStr j with
    | none => none
    | some s =>
      match asStrList rest with
      | none => none
      | some ss => some (s :: ss)

/-- The attribute loop of `get_product_review`:
`for attr in reviews["attributes"]: ... attributes += f"{title}: {values}\n"`.
The accumulator is the `attributes` string built so far; any shape error
raises (`none`). -/
def attrLoop : List Json → String → Option String
  | [], acc => some acc
  | attr :: rest, acc =>
    match dictGet attr "title" (Json.str "") with
    | none => none
    | some titleJ =>
      match asStr titleJ with
      | none => none
      | some titleS =>
        match dictGet attr "values" (Json.arr []) with
        | none => none
        | some valsJ =>
          match pyIter valsJ with
          | none => none
          | some vitems =>
            match asStrList vitems with
            | none => none
            | some vstrs =>
              attrLoop rest
                (acc ++ clean_text titleS ++ ": " ++
                  joinBySpace (vstrs.map clean_text) ++ "\n")

/-- The `try` body of `Crawler.get_product_review`: navigate
`jsonfile.get("data", {}).get("product", {}).get("review", {})`, clean the
description, render the attribute blocks. `none` models a raised
exception. -/
def reviewBody (jsonfile : Json) : Option (String × String) :=
  match dictGet jsonfile "data" (Json.obj []) with
  | none => none
  | some dataJ =>
    match dictGet dataJ "product" (Json.obj []) with
    | none => none
    | some productJ =>
      match dictGet productJ "review" (Json.obj []) with
      | none => none
      | some reviews =>
        match dictGet reviews "description" (Json.str "") with
        | none => none
        | some descJ =>
          match asStr descJ with
          | none => none
          | some descS =>
            match
              (if pyContainsKey reviews "attributes" then
                match pyIndex reviews "attributes" with
                | none => none
                | some attrsJ =>
                  match pyIter attrsJ with
                  | none => none
                  | some items => attrLoop items ""
              else some "")
            with
            | none => none
            | some attributes => some (clean_text descS, pyStrip attributes)

/-- `Crawler.get_product_review`: the `try` body with every exception
absorbed into `("", "")`. -/
def get_product_review (jsonfile : Json) : String × String :=
  (reviewBody jsonfile).getD ("", "")

/-- Worker for `pyFormat`; the fuel is the template length, which bounds
the number of scanning steps. -/
def pyFormatGo (args : List (String × String)) : Nat → List Char → List Char
  | _, [] => []
  | 0, l => l
  | fuel + 1, c :: rest =>
    if c == '\x7b' then
      match rest.dropWhile (fun d => !(d == '\x7d')) with
      | '\x7d' :: rest2 =>
        (((lookupField args
            (String.mk (rest.takeWhile (fun d => !(d == '\x7d'))))).getD
          (String.mk ('\x7b' :: rest.takeWhile (fun d => !(d == '\x7d')) ++
            ['\x7d']))).data) ++ pyFormatGo args fuel rest2
      | _ => c :: pyFormatGo args fuel rest
    else c :: pyFormatGo args fuel rest

/-- Models `template.format(**kwargs)` for templates whose placeholders
are simple names among the supplied keyword arguments (the shape of the
configured URL templates); an unknown placeholder is left verbatim. -/
def pyFormat (template : String) (args : List (String × String)) : String :=
  String.mk (pyFormatGo args template.data.length template.data)

/-- The outcome of one `requests.get` call: either the request raised
(connection error and the like), or a response arrived with a status code
and a body; `none` as body models a body that is not valid JSON, for which
`response.json()` raises. -/
inductive NetOutcome where
  | transportError : NetOutcome
  | response (status : Nat) (body : Option Json) : NetOutcome

/-- `response.raise_for_status()` raises exactly for status codes in
400..599 (4xx client errors and 5xx server errors). -/
def raisesForStatus (status : Nat) : Bool := decide (400 ≤ status ∧ status < 600)

/-- The `try` body of `Crawler.get_products` after the request: check the
status, decode the body, take `["data"]["products"]`. `none` models a
raised exception. -/
def productsFromOutcome : NetOutcome → Option Json
  | .transportError => none
  | .response status body =>
    if raisesForStatus status then none
    else
      match body with
      | none => none
      | some j =>
        match pyIndex j "data" with
        | none => none
        | some d => pyIndex d "products"

/-- The `try` body of `Crawler.get_product_details` after the request:
check the status and decode the body. -/
def detailFromOutcome : NetOutcome → Option Json
  | .transportError => none
  | .response status body =>
    if raisesForStatus status then none else body

/-- The `crawler` section of the configuration mapping. -/
structure CrawlerConfig where
  url_get_products : String
  url_get_product_detail : String
  category : String
  brand : String

/-- The configuration mapping passed to `Crawler.__init__`. -/
structure Config where
  crawler : CrawlerConfig

/-- The state set up by `Crawler.__init__`. -/
structure Crawler where
  url_get_products : String
  url_get_product_detail : String
  category : String
  brand : String
  page : Nat

/-- `Crawler.__init__(config, page)`; the source defaults `page` to 1 at
call sites that omit it. -/
def Crawler.init (config : Config) (page : Nat) : Crawler :=
  { url_get_products := config.crawler.url_get_products
    url_get_product_detail := config.crawler.url_get_product_detail
    category := config.crawler.category
    brand := config.crawler.brand
    page := page }

/-- The boundary events a crawler emits, in order: HTTP requests (by URL),
persistence-sink calls, and log messages. Each log constructor stands for
one message of src/crawler.py, carrying the data interpolated into it. -/
inductive Event where
  | logStart (page : Nat) : Event
  | fetchListing (url : String) : Event
  | logListingError : Event
  | logCount (count : Nat) (page : Nat) : Event
  | fetchDetail (url : String) : Event
  | logDetailError (productid : String) : Event
  | persist (description : String) (attributes : String) : Event
  | logRunError (page : Nat) : Event
  | logComplete (page : Nat) : Event
deriving DecidableEq

/-- The listing URL: `self.url_get_products.format(category=..., brand=..., page=...)`. -/
def listingUrlFor (c : Crawler) (category brand : String) (page : Nat) : String :=
  pyFormat c.url_get_products
    [("category", category), ("brand", brand), ("page", toString page)]

/-- The detail URL: `self.url_get_product_detail.format(productid=...)`. -/
def detailUrlFor (c : Crawler) (productid : Json) : String :=
  pyFormat c.url_get_product_detail [("productid", pyStr productid)]

/-- `Crawler.get_products(category, brand, page)`: issues the listing
request and absorbs every failure into an empty list, logging it. Returns
the emitted events together with the returned value. -/
def Crawler.get_products (c : Crawler) (env : String → NetOutcome)
    (category brand : String) (page : Nat) : List Event × Json :=
  let url := listingUrlFor c category brand page
  match productsFromOutcome (env url) with
  | some products => ([Event.fetchListing url], products)
  | none => ([Event.fetchListing url, Event.logListingError], Json.arr [])

/-- `Crawler.get_product_details(productid)`: issues the detail request
and absorbs every failure into an empty dict, logging it. -/
def Crawler.get_product_details (c : Crawler) (env : String → NetOutcome)
    (productid : Json) : List Event × Json :=
  let url := detailUrlFor c productid
  match detailFromOutcome (env url) with
  | some j => ([Event.fetchDetail url], j)
  | none =>
    ([Event.fetchDetail url, Event.logDetailError (pyStr productid)],
      Json.obj [])

/-- The per-product loop of `Crawler.run`. Returns the events emitted and
whether the loop ran to completion (`false`: the loop body raised, which
in this model only `product.get("id")` on a non-dict product can do). -/
def processProducts (c : Crawler) (env : String → NetOutcome) :
    List Json → List Event × Bool
  | [] => ([], true)
  | product :: rest =>
    match dictGet product "id" Json.null with
    | none => ([], false)
    | some product_id =>
      if pyTruthy product_id then
        let fetched := c.get_product_details env product_id
        let review := get_product_review fetched.2
        let tail := processProducts c env rest
        (fetched.1 ++ Event.persist review.1 review.2 :: tail.1, tail.2)
      else processProducts c env rest

/-- `Crawler.run()`: fetch the listing (note: the source omits the `page`
argument, so `get_products` is called with its default `page=1`), log the
count, loop over the products, catch any exception of the whole block and
log it with the instance's page, then log completion. -/
def Crawler.run (c : Crawler) (env : String → NetOutcome) : List Event :=
  Event.logStart c.page ::
  (let fetched := c.get_products env c.category c.brand 1
   fetched.1 ++
    (match pyLen fetched.2 with
     | none => [Event.logRunError c.page]
     | some n =>
       Event.logCount n c.page ::
        (match pyIter fetched.2 with
         | none => [Event.logRunError c.page]
         | some items =>
           let processed := processProducts c env items
           processed.1 ++
            (if processed.2 then [] else [Event.logRunError c.page])))) ++
  [Event.logComplete c.page]

/-- The events the loop emits for one product: nothing when the id is
missing or falsy, otherwise the detail request followed by one
persistence-sink call. -/
def perProductEvents (c : Crawler) (env : String → NetOutcome)
    (product : Json) : List Event :=
  match dictGet product "id" Json.null with
  | none => []
  | some pid =>
    if pyTruthy pid then
      (c.get_product_details env pid).1 ++
        [Event.persist (get_product_review (c.get_product_details env pid).2).1
          (get_product_review (c.get_product_details env pid).2).2]
    else []

/-- The concatenated per-product events of a listing, in listing order. -/
def allProductsTrace (c : Crawler) (env : String → NetOutcome) :
    List Json → List Event
  | [] => []
  | p :: rest => perProductEvents c env p ++ allProductsTrace c env rest

/-- Whether a JSON value is an object (a Python dict). -/
def Json.isObj : Json → Bool
  | .obj _ => true
  | _ => false

/-- The listing request URLs occurring in a trace, in order. -/
def listingRequests : List Event → List String
  | [] => []
  | Event.fetchListing url :: rest => url :: listingRequests rest
  | _ :: rest => listingRequests rest

/-- The detail request URLs occurring in a trace, in order. -/
def detailRequests : List Event → List String
  | [] => []
  | Event.fetchDetail url :: rest => url :: detailRequests rest
  | _ :: rest => detailRequests rest

/-- A well-shaped listing response body `{"data": {"products": [...]}}`. -/
def listingBody (products : List Json) : Json :=
  Json.obj [("data", Json.obj [("products", Json.arr products)])]

/-- An environment answering every request with a 200 response whose body
is the given listing (also used for detail requests, whose body is then
simply an unusable payload that extracts to `("", "")`). -/
def listingEnv (products : List Json) : String → NetOutcome :=
  fun _ => NetOutcome.response 200 (some (listingBody products))

/-- A detail payload whose `data.product.review` object is `rs`. -/
def reviewPayload (rs : List (String × Json)) : Json :=
  Json.obj [("data", Json.obj [("product", Json.obj [("review", Json.obj rs)])])]

/-- Encodes one review attribute `{"title": ..., "values": [...]}`. -/
def encodeAttr (a : String × List String) : Json :=
  Json.obj [("title", Json.str a.1), ("values", Json.arr (a.2.map Json.str))]

/-- A fully-shaped detail payload with a description and attribute list. -/
def reviewPayloadFull (d : String) (attrs : List (String × List String)) : Json :=
  reviewPayload
    [("description", Json.str d), ("attributes", Json.arr (attrs.map encodeAttr))]

/-- The specification's rendering of the attribute blocks: for each
attribute, `"{normalize(title)}: {normalized values joined by one space}\n"`,
concatenated in source order (before the final trim). -/
def renderAttrBlocks : List (String × List String) → String
  | [] => ""
  | a :: rest =>
    clean_text a.1 ++ ": " ++ joinBySpace (a.2.map clean_text) ++ "\n" ++
      renderAttrBlocks rest

/-- The failure conditions of a listing fetch: transport error, status in
400..599, invalid JSON body, or a body without the `data.products` path. -/
def listingFailure : NetOutcome → Bool
  | .transportError => true
  | .response _ none => true
  | .response status (some j) =>
    raisesForStatus status ||
      (match pyIndex j "data" with
       | none => true
       | some d => (pyIndex d "products").isNone)

/-- The failure conditions of a detail fetch: transport error, status in
400..599, or invalid JSON body. -/
def detailFailure : NetOutcome → Bool
  | .transportError => true
  | .response status body => raisesForStatus status || body.isNone

/-- A concrete configuration with the usual placeholder templates. -/
def cfgEx : Config :=
  ⟨⟨"https://x/\x7bcategory\x7d/\x7bbrand\x7d/?page=\x7bpage\x7d",
    "https://x/product/\x7bproductid\x7d/", "mobile", "samsung"⟩⟩

/-- A 3-product listing in which every product has an `id` field, the
second one falsy (`0`). -/
def products7 : List Json :=
  [Json.obj [("id", Json.num 1)], Json.obj [("id", Json.num 0)],
    Json.obj [("id", Json.num 2)]]

/-- The spec's example listing: three products, the second lacking `id`. -/
def productsSpec : List Json :=
  [Json.obj [("id", Json.num 1)], Json.obj [],
    Json.obj [("id", Json.num 2)]]

/-- A listing whose second element is not a dict, so the loop body raises
on `product.get("id")`. -/
def products8 : List Json :=
  [Json.obj [("id", Json.num 1)], Json.str "oops",
    Json.obj [("id", Json.num 2)]]

/-- An environment whose every response has status 300 (non-2xx but
outside 400..599) and a well-shaped, non-empty listing body. -/
def env300 : String → NetOutcome :=
  fun _ => NetOutcome.response 300 (some (listingBody [Json.obj [("id", Json.num 5)]]))

/-- A detail payload whose attribute values include a string that
normalizes to the empty string. -/
def payload9 : Json :=
  reviewPayload
    [("description", Json.str "ok"),
     ("attributes", Json.arr
       [Json.obj [("title", Json.str "T"),
         ("values", Json.arr
           [Json.str "x", Json.str (String.mk [zwnj]), Json.str "y"])]])]

/-! ### Normalization: `clean_text` equals the spec's chunks-joined form -/

theorem space_isPySpace : isPySpace ' ' = true := by decide

theorem collapseAux_true (l : List Char) :
    collapseAux true l = collapseAux false (l.dropWhile isPySpace) := by
  induction l with
  | nil => rfl
  | cons c r ih =>
    by_cases h : isPySpace c = true
    · simp [collapseAux, List.dropWhile_cons, h, ih]
    · simp [collapseAux, List.dropWhile_cons, h]

theorem collapseWS_nil : collapseWS [] = [] := rfl

theorem collapseWS_cons_ws {c : Char} (h : isPySpace c = true) (r : List Char) :
    collapseWS (c :: r) = ' ' :: collapseWS (r.dropWhile isPySpace) := by
  simp [collapseWS, collapseAux, h, collapseAux_true]

theorem collapseWS_cons_nonws {c : Char} (h : isPySpace c = false) (r : List Char) :
    collapseWS (c :: r) = c :: collapseWS r := by
  simp [collapseWS, collapseAux, h]

theorem dropWhile_append_last_nonws {c : Char} (h : isPySpace c = false)
    (y : List Char) :
    (y ++ [c]).dropWhile isPySpace = y.dropWhile isPySpace ++ [c] := by
  induction y with
  | nil => simp [List.dropWhile, h]
  | cons a y2 ih =>
    by_cases ha : isPySpace a = true
    · simp [List.dropWhile_cons, ha, ih]
    · simp [List.dropWhile_cons, ha]

theorem dropWhile_append_keep {y : List Char}
    (h : y.dropWhile isPySpace ≠ []) (z : List Char) :
    (y ++ z).dropWhile isPySpace = y.dropWhile isPySpace ++ z := by
  induction y with
  | nil => simp at h
  | cons a y2 ih =>
    by_cases ha : isPySpace a = true
    · have h2 : y2.dropWhile isPySpace ≠ [] := by
        simpa [List.dropWhile_cons, ha] using h
      simp [List.dropWhile_cons, ha, ih h2]
    · simp [List.dropWhile_cons, ha]

theorem stripR_cons_nonws {c : Char} (h : isPySpace c = false) (x : List Char) :
    stripR (c :: x) = c :: stripR x := by
  simp [stripR, List.reverse_cons, dropWhile_append_last_nonws h]

theorem stripR_cons_of_ne_nil {x : List Char} (h : stripR x ≠ []) (c : Char) :
    stripR (c :: x) = c :: stripR x := by
  have h2 : x.reverse.dropWhile isPySpace ≠ [] := by
    intro h3
    exact h (by simp [stripR, h3])
  simp [stripR, List.reverse_cons, dropWhile_append_keep h2]

theorem stripR_ne_nil_of_cons_nonws {c : Char} (h : isPySpace c = false)
    (x : List Char) : stripR (c :: x) ≠ [] := by
  rw [stripR_cons_nonws h]
  exact List.cons_ne_nil _ _

theorem dropWhile_head_nonsat {α : Type} {p : α → Bool} :
    ∀ {l : List α} {c : α} {t : List α}, l.dropWhile p = c :: t → p c = false := by
  intro l
  induction l with
  | nil => intro c t h; simp [List.dropWhile] at h
  | cons a r ih =>
    intro c t h
    by_cases ha : p a = true
    · exact ih (by simpa [List.dropWhile_cons, ha] using h)
    · rw [List.dropWhile_cons, if_neg (by simp [ha])] at h
      cases h
      simpa using ha

theorem wordsWS_nil : wordsWS [] = [] := by simp [wordsWS]

theorem wordsWS_cons_ws {c : Char} (h : isPySpace c = true) (r : List Char) :
    wordsWS (c :: r) = wordsWS r := by
  rw [wordsWS]
  simp [h]

theorem wordsWS_cons_nonws {c : Char} (h : isPySpace c = false) (r : List Char) :
    wordsWS (c :: r) =
      (c :: r.takeWhile (fun d => !isPySpace d)) ::
        wordsWS (r.dropWhile (fun d => !isPySpace d)) := by
  rw [wordsWS]
  simp [h]

theorem wordsWS_dropWhile (l : List Char) :
    wordsWS (l.dropWhile isPySpace) = wordsWS l := by
  induction l with
  | nil => rfl
  | cons c r ih =>
    by_cases h : isPySpace c = true
    · rw [List.dropWhile_cons, if_pos (by simp [h]), ih, wordsWS_cons_ws h]
    · rw [List.dropWhile_cons, if_neg (by simp [h])]

theorem joinWords_cons (w : List Char) (rest : List (List Char)) :
    joinWords (w :: rest) = w ++ tailJoin rest := by
  cases rest <;> simp [joinWords, tailJoin]

theorem stripR_collapse :
    ∀ r : List Char,
      stripR (collapseWS r) =
        r.takeWhile (fun d => !isPySpace d) ++
          tailJoin (wordsWS (r.dropWhile (fun d => !isPySpace d)))
  | [] => by simp [collapseWS_nil, stripR, wordsWS_nil, tailJoin]
  | d :: r2 => by
    by_cases hd : isPySpace d = true
    · rw [collapseWS_cons_ws hd]
      rw [List.takeWhile_cons, List.dropWhile_cons]
      simp only [hd, Bool.not_true, if_neg (by simp : ¬ (false = true))]
      rw [wordsWS_cons_ws hd, ← wordsWS_dropWhile r2]
      cases hr3 : r2.dropWhile isPySpace with
      | nil =>
        rw [collapseWS_nil]
        simp [stripR, List.dropWhile, space_isPySpace, wordsWS_nil, tailJoin]
      | cons e r4 =>
        have he : isPySpace e = false := dropWhile_head_nonsat hr3
        have hne : stripR (collapseWS (e :: r4)) ≠ [] := by
          rw [collapseWS_cons_nonws he]
          exact stripR_ne_nil_of_cons_nonws he _
        rw [stripR_cons_of_ne_nil hne]
        rw [stripR_collapse (e :: r4)]
        rw [wordsWS_cons_nonws he, tailJoin, joinWords_cons]
        simp [he]
    · have hd2 : isPySpace d = false := by simpa using hd
      rw [collapseWS_cons_nonws hd2, stripR_cons_nonws hd2,
        stripR_collapse r2, List.takeWhile_cons, List.dropWhile_cons]
      simp [hd2]
termination_by r => r.length
decreasing_by
  all_goals first
    | exact Nat.lt_succ_of_le (Nat.le_refl _)
    | exact Nat.lt_succ_of_le (hr3 ▸ (List.dropWhile_sublist _).length_le)

theorem strip_collapse_eq_joinWords :
    ∀ l : List Char, stripWS (collapseWS l) = joinWords (wordsWS l)
  | [] => by simp [collapseWS_nil, stripWS, wordsWS_nil, joinWords]
  | c :: r => by
    by_cases hc : isPySpace c = true
    · rw [collapseWS_cons_ws hc]
      have h1 : stripWS (' ' :: collapseWS (r.dropWhile isPySpace)) =
          stripWS (collapseWS (r.dropWhile isPySpace)) := by
        simp [stripWS, List.dropWhile_cons, space_isPySpace]
      rw [h1, strip_collapse_eq_joinWords (r.dropWhile isPySpace),
        wordsWS_dropWhile, wordsWS_cons_ws hc]
    · have hc2 : isPySpace c = false := by simpa using hc
      rw [collapseWS_cons_nonws hc2]
      have h1 : stripWS (c :: collapseWS r) = stripR (c :: collapseWS r) := by
        simp [stripWS, stripR, List.dropWhile_cons, hc2]
      rw [h1, stripR_cons_nonws hc2, stripR_collapse r,
        wordsWS_cons_nonws hc2, joinWords_cons]
      simp
termination_by l => l.length
decreasing_by
  · simp only [List.length_cons]
    exact Nat.lt_succ_of_le (List.dropWhile_sublist _).length_le

/-- `clean_text` computes exactly the spec's normalization. -/
theorem clean_text_eq_spec (s : String) : clean_text s = normalize_spec s :=
  congrArg String.mk (strip_collapse_eq_joinWords (removeZWNJ s.data))

/-! ### Structure of the normalized output -/

theorem takeWhile_all_sat {α : Type} (p : α → Bool) (l : List α) :
    (l.takeWhile p).all p = true := by
  induction l with
  | nil => rfl
  | cons a r ih =>
    by_cases h : p a = true
    · simp [List.takeWhile_cons, h, ih]
    · simp [List.takeWhile_cons, h]

theorem wordsWS_words_ok :
    ∀ l : List Char, ∀ w ∈ wordsWS l,
      w ≠ [] ∧ w.all (fun c => !isPySpace c) = true
  | [] => by simp [wordsWS_nil]
  | c :: r => by
    by_cases h : isPySpace c = true
    · rw [wordsWS_cons_ws h]
      exact wordsWS_words_ok r
    · have h2 : isPySpace c = false := by simpa using h
      rw [wordsWS_cons_nonws h2]
      intro w hw
      rcases List.mem_cons.mp hw with rfl | hw2
      · refine ⟨List.cons_ne_nil _ _, ?_⟩
        simp [List.all_cons, h2, takeWhile_all_sat]
      · exact wordsWS_words_ok (r.dropWhile (fun d => !isPySpace d)) w hw2
termination_by l => l.length
decreasing_by
  all_goals first
    | exact Nat.lt_succ_of_le (Nat.le_refl _)
    | exact Nat.lt_succ_of_le (List.dropWhile_sublist _).length_le

theorem wordsWS_chars_mem :
    ∀ l : List Char, ∀ w ∈ wordsWS l, ∀ c ∈ w, c ∈ l
  | [] => by simp [wordsWS_nil]
  | c :: r => by
    by_cases h : isPySpace c = true
    · rw [wordsWS_cons_ws h]
      intro w hw d hd
      exact List.mem_cons_of_mem _ (wordsWS_chars_mem r w hw d hd)
    · have h2 : isPySpace c = false := by simpa using h
      rw [wordsWS_cons_nonws h2]
      intro w hw d hd
      rcases List.mem_cons.mp hw with rfl | hw2
      · rcases List.mem_cons.mp hd with rfl | hd2
        · exact List.mem_cons_self _ _
        · exact List.mem_cons_of_mem _ (List.takeWhile_subset _ hd2)
      · have hmem :=
          wordsWS_chars_mem (r.dropWhile (fun d => !isPySpace d)) w hw2 d hd
        exact List.mem_cons_of_mem _ (List.dropWhile_subset _ hmem)
termination_by l => l.length
decreasing_by
  all_goals first
    | exact Nat.lt_succ_of_le (Nat.le_refl _)
    | exact Nat.lt_succ_of_le (List.dropWhile_sublist _).length_le

theorem joinWords_all {p : Char → Bool} (hsp : p ' ' = true) :
    ∀ W : List (List Char), (∀ w ∈ W, w.all p = true) →
      (joinWords W).all p = true
  | [] => fun _ => rfl
  | [w] => fun h => by simpa [joinWords] using h w (by simp)
  | w :: w2 :: rest => fun h => by
    have h1 := h w (by simp)
    have h2 := joinWords_all hsp (w2 :: rest) (fun u hu => h u (by simp [hu]))
    simp [joinWords, List.all_append, List.all_cons, hsp, h1, h2]

theorem noWSRun_append {w y : List Char}
    (hw : w.all (fun c => !isPySpace c) = true) (hy : noWSRun y = true) :
    noWSRun (w ++ y) = true := by
  induction w with
  | nil => simpa
  | cons a w2 ih =>
    rw [List.all_cons] at hw
    have ha : isPySpace a = false := by
      have := (Bool.and_eq_true _ _).mp hw |>.1
      simpa using this
    have hw2 := (Bool.and_eq_true _ _).mp hw |>.2
    rw [List.cons_append]
    cases hwy : w2 ++ y with
    | nil => rfl
    | cons b t =>
      rw [noWSRun, Bool.and_eq_true, ha]
      exact ⟨rfl, hwy ▸ ih hw2⟩

theorem noWSRun_of_all {w : List Char}
    (hw : w.all (fun c => !isPySpace c) = true) : noWSRun w = true := by
  have := noWSRun_append hw (y := []) rfl
  simpa using this

theorem joinWords_noWSRun :
    ∀ W : List (List Char),
      (∀ w ∈ W, w ≠ [] ∧ w.all (fun c => !isPySpace c) = true) →
      noWSRun (joinWords W) = true
  | [] => fun _ => rfl
  | [w] => fun h => by
    rw [joinWords]
    exact noWSRun_of_all (h w (by simp)).2
  | w :: w2 :: rest => fun h => by
    have hj := joinWords_noWSRun (w2 :: rest) (fun u hu => h u (by simp [hu]))
    obtain ⟨hne, hall⟩ := h w2 (by simp)
    rw [joinWords]
    apply noWSRun_append (h w (by simp)).2
    cases w2 with
    | nil => exact absurd rfl hne
    | cons b w2t =>
      have hb : isPySpace b = false := by
        rw [List.all_cons] at hall
        have := (Bool.and_eq_true _ _).mp hall |>.1
        simpa using this
      rw [joinWords_cons, List.cons_append, noWSRun, Bool.and_eq_true]
      refine ⟨by simp [hb], ?_⟩
      rw [← List.cons_append, ← joinWords_cons]
      exact hj

theorem all_headNonWS {l : List Char}
    (h : l.all (fun c => !isPySpace c) = true) : headNonWS l = true := by
  cases l with
  | nil => rfl
  | cons c t =>
    rw [List.all_cons] at h
    exact (Bool.and_eq_true _ _).mp h |>.1

theorem headNonWS_append_left {x : List Char} (h : x ≠ []) (y : List Char) :
    headNonWS (x ++ y) = headNonWS x := by
  cases x with
  | nil => exact absurd rfl h
  | cons c t => rfl

theorem lastNonWS_append_right (x : List Char) {y : List Char} (h : y ≠ []) :
    lastNonWS (x ++ y) = lastNonWS y := by
  rw [lastNonWS, List.reverse_append, lastNonWS]
  exact headNonWS_append_left (by simpa using h) _

theorem joinWords_ne_nil {w : List Char} (h : w ≠ []) (rest : List (List Char)) :
    joinWords (w :: rest) ≠ [] := by
  rw [joinWords_cons]
  intro hcontra
  exact h (List.append_eq_nil.mp hcontra).1

theorem joinWords_headNonWS :
    ∀ W : List (List Char),
      (∀ w ∈ W, w ≠ [] ∧ w.all (fun c => !isPySpace c) = true) →
      headNonWS (joinWords W) = true := by
  intro W h
  cases W with
  | nil => rfl
  | cons w rest =>
    obtain ⟨hne, hall⟩ := h w (by simp)
    rw [joinWords_cons, headNonWS_append_left hne]
    exact all_headNonWS hall

theorem joinWords_lastNonWS :
    ∀ W : List (List Char),
      (∀ w ∈ W, w ≠ [] ∧ w.all (fun c => !isPySpace c) = true) →
      lastNonWS (joinWords W) = true
  | [] => fun _ => rfl
  | [w] => fun h => by
    rw [joinWords, lastNonWS]
    apply all_headNonWS
    rw [List.all_reverse]
    exact (h w (by simp)).2
  | w :: w2 :: rest => fun h => by
    have hj := joinWords_lastNonWS (w2 :: rest) (fun u hu => h u (by simp [hu]))
    have hne2 : joinWords (w2 :: rest) ≠ [] :=
      joinWords_ne_nil (h w2 (by simp)).1 rest
    rw [joinWords, lastNonWS_append_right _ (List.cons_ne_nil _ _),
      lastNonWS, List.reverse_cons, headNonWS_append_left (by simpa using hne2),
      ← lastNonWS]
    exact hj

theorem clean_text_data (s : String) :
    (clean_text s).data = joinWords (wordsWS (removeZWNJ s.data)) := by
  rw [clean_text_eq_spec]
  rfl

theorem clean_text_noZWNJ (s : String) : noZWNJ (clean_text s) = true := by
  rw [noZWNJ, clean_text_data]
  apply joinWords_all (by decide)
  intro w hw
  rw [List.all_eq_true]
  intro c hc
  have hmem := wordsWS_chars_mem _ w hw c hc
  rw [removeZWNJ, List.mem_filter] at hmem
  exact hmem.2

theorem clean_text_noWSRun (s : String) : noWSRun (clean_text s).data = true := by
  rw [clean_text_data]
  exact joinWords_noWSRun _ (wordsWS_words_ok _)

theorem clean_text_headNonWS (s : String) :
    headNonWS (clean_text s).data = true := by
  rw [clean_text_data]
  exact joinWords_headNonWS _ (wordsWS_words_ok _)

theorem clean_text_lastNonWS (s : String) :
    lastNonWS (clean_text s).data = true := by
  rw [clean_text_data]
  exact joinWords_lastNonWS _ (wordsWS_words_ok _)

/-! ### Idempotence of normalization -/

theorem removeZWNJ_clean (s : String) :
    removeZWNJ (clean_text s).data = (clean_text s).data := by
  rw [removeZWNJ, List.filter_eq_self]
  intro a ha
  have h := clean_text_noZWNJ s
  rw [noZWNJ, List.all_eq_true] at h
  exact h a ha

theorem takeWhile_eq_self_of_all {α : Type} {p : α → Bool} :
    ∀ {l : List α}, l.all p = true → l.takeWhile p = l := by
  intro l
  induction l with
  | nil => intro _; rfl
  | cons a r ih =>
    intro h
    rw [List.all_cons, Bool.and_eq_true] at h
    rw [List.takeWhile_cons, if_pos (by simp [h.1]), ih h.2]

theorem dropWhile_eq_nil_of_all {α : Type} {p : α → Bool} :
    ∀ {l : List α}, l.all p = true → l.dropWhile p = [] := by
  intro l
  induction l with
  | nil => intro _; rfl
  | cons a r ih =>
    intro h
    rw [List.all_cons, Bool.and_eq_true] at h
    rw [List.dropWhile_cons, if_pos (by simp [h.1])]
    exact ih h.2

theorem takeWhile_append_all {α : Type} {p : α → Bool} {w : List α}
    (h : w.all p = true) (z : List α) :
    (w ++ z).takeWhile p = w ++ z.takeWhile p := by
  induction w with
  | nil => rfl
  | cons a r ih =>
    rw [List.all_cons, Bool.and_eq_true] at h
    rw [List.cons_append, List.takeWhile_cons, if_pos (by simp [h.1]),
      ih h.2, List.cons_append]

theorem dropWhile_append_all {α : Type} {p : α → Bool} {w : List α}
    (h : w.all p = true) (z : List α) :
    (w ++ z).dropWhile p = z.dropWhile p := by
  induction w with
  | nil => rfl
  | cons a r ih =>
    rw [List.all_cons, Bool.and_eq_true] at h
    rw [List.cons_append, List.dropWhile_cons, if_pos (by simp [h.1]), ih h.2]

theorem wordsWS_single {w : List Char} (hne : w ≠ [])
    (hall : w.all (fun c => !isPySpace c) = true) : wordsWS w = [w] := by
  cases w with
  | nil => exact absurd rfl hne
  | cons c r =>
    rw [List.all_cons, Bool.and_eq_true] at hall
    have hc : isPySpace c = false := by simpa using hall.1
    rw [wordsWS_cons_nonws hc, takeWhile_eq_self_of_all hall.2,
      dropWhile_eq_nil_of_all hall.2, wordsWS_nil]

theorem wordsWS_word_prepend {w : List Char} (hne : w ≠ [])
    (hall : w.all (fun c => !isPySpace c) = true) (y : List Char) :
    wordsWS (w ++ ' ' :: y) = w :: wordsWS y := by
  cases w with
  | nil => exact absurd rfl hne
  | cons c r =>
    rw [List.all_cons, Bool.and_eq_true] at hall
    have hc : isPySpace c = false := by simpa using hall.1
    rw [List.cons_append, wordsWS_cons_nonws hc,
      takeWhile_append_all hall.2, dropWhile_append_all hall.2]
    have hsp : (fun d => !isPySpace d) ' ' = false := by decide
    rw [List.takeWhile_cons, if_neg (by simp [hsp]), List.dropWhile_cons,
      if_neg (by simp [hsp]), List.append_nil, wordsWS_cons_ws space_isPySpace]

theorem wordsWS_joinWords :
    ∀ W : List (List Char),
      (∀ w ∈ W, w ≠ [] ∧ w.all (fun c => !isPySpace c) = true) →
      wordsWS (joinWords W) = W
  | [] => fun _ => wordsWS_nil
  | [w] => fun h => by
    rw [joinWords]
    exact wordsWS_single (h w (by simp)).1 (h w (by simp)).2
  | w :: w2 :: rest => fun h => by
    rw [joinWords, wordsWS_word_prepend (h w (by simp)).1 (h w (by simp)).2,
      wordsWS_joinWords (w2 :: rest) (fun u hu => h u (by simp [hu]))]

/-! ### Claims about normalization -/

/-- C2: `clean_text` removes every zero-width non-joiner, replaces every
maximal whitespace run (newlines and tabs included) by a single space and
strips leading/trailing whitespace — it equals the spec-side
`normalize_spec` on every string; it is a pure total function, maps the
empty string to the empty string, and maps `"a\u200C b\n\tc"` to
`"a b c"`. -/
theorem C2_normalize_behavior :
    (∀ s : String, clean_text s = normalize_spec s) ∧
    clean_text "" = "" ∧
    clean_text "a\u200C b\n\tc" = "a b c" :=
  ⟨clean_text_eq_spec, rfl, by decide⟩

/-- C3: `clean_text` is idempotent. -/
theorem C3_normalize_idempotent (s : String) :
    clean_text (clean_text s) = clean_text s := by
  rw [clean_text_eq_spec (clean_text s), normalize_spec, removeZWNJ_clean s,
    clean_text_data s, wordsWS_joinWords _ (wordsWS_words_ok _),
    ← clean_text_data s]

/-! ### The review extractor -/

theorem asStrList_map_str : ∀ l : List String, asStrList (l.map Json.str) = some l := by
  intro l
  induction l with
  | nil => rfl
  | cons s rest ih => simp [asStrList, asStr, ih]

theorem attrLoop_encoded (attrs : List (String × List String)) :
    ∀ acc : String,
      attrLoop (attrs.map encodeAttr) acc = some (acc ++ renderAttrBlocks attrs) := by
  induction attrs with
  | nil =>
    intro acc
    simp [attrLoop, renderAttrBlocks]
  | cons a rest ih =>
    intro acc
    simp [attrLoop, encodeAttr, dictGet, lookupField, asStr, pyIter,
      asStrList_map_str, ih, renderAttrBlocks, String.append_assoc]

/-- C4: `get_product_review` on the empty dict returns `("", "")`; when any
segment of `data.product.review` is absent the navigation substitutes an
empty dict at that level and never fails on missing keys, and the
description is `clean_text` of `review.description` or of `""` when it is
absent. -/
theorem C4_extract_missing_path :
    get_product_review (Json.obj []) = ("", "") ∧
    (∀ fs, lookupField fs "data" = none →
      get_product_review (Json.obj fs) = ("", "")) ∧
    (∀ fs gs, lookupField fs "data" = some (Json.obj gs) →
      lookupField gs "product" = none →
      get_product_review (Json.obj fs) = ("", "")) ∧
    (∀ fs gs hs, lookupField fs "data" = some (Json.obj gs) →
      lookupField gs "product" = some (Json.obj hs) →
      lookupField hs "review" = none →
      get_product_review (Json.obj fs) = ("", "")) ∧
    (∀ rs d, lookupField rs "description" = some (Json.str d) →
      lookupField rs "attributes" = none →
      get_product_review (reviewPayload rs) = (clean_text d, "")) ∧
    (∀ rs, lookupField rs "description" = none →
      lookupField rs "attributes" = none →
      get_product_review (reviewPayload rs) = ("", "")) := by
  refine ⟨rfl, ?_, ?_, ?_, ?_, ?_⟩
  · intro fs h
    simp [get_product_review, reviewBody, dictGet, h, pyContainsKey,
      lookupField, asStr]
    exact ⟨rfl, rfl⟩
  · intro fs gs h1 h2
    simp [get_product_review, reviewBody, dictGet, h1, h2, pyContainsKey,
      lookupField, asStr]
    exact ⟨rfl, rfl⟩
  · intro fs gs hs h1 h2 h3
    simp [get_product_review, reviewBody, dictGet, h1, h2, h3, pyContainsKey,
      lookupField, asStr]
    exact ⟨rfl, rfl⟩
  · intro rs d h1 h2
    simp [get_product_review, reviewBody, reviewPayload, dictGet, h1, h2,
      pyContainsKey, lookupField, asStr]
    rfl
  · intro rs h1 h2
    simp [get_product_review, reviewBody, reviewPayload, dictGet, h1, h2,
      pyContainsKey, lookupField, asStr]
    exact ⟨rfl, rfl⟩

/-- Witness for C4: concrete payloads with the path absent at each level,
with a present description, and with an absent description. -/
theorem C4_extract_missing_path_witness :
    get_product_review (Json.obj [("x", Json.num 1)]) = ("", "") ∧
    get_product_review (Json.obj [("data", Json.obj [("y", Json.num 2)])]) = ("", "") ∧
    get_product_review (Json.obj
      [("data", Json.obj [("product", Json.obj [("z", Json.num 3)])])]) = ("", "") ∧
    get_product_review (reviewPayload [("description", Json.str " hi  there ")]) =
      ("hi there", "") ∧
    get_product_review (reviewPayload [("extra", Json.num 3)]) = ("", "") :=
  ⟨C4_extract_missing_path.2.1 _ rfl,
   C4_extract_missing_path.2.2.1 _ _ rfl rfl,
   C4_extract_missing_path.2.2.2.1 _ _ _ rfl rfl rfl,
   (C4_extract_missing_path.2.2.2.2.1
     [("description", Json.str " hi  there ")] " hi  there " rfl rfl).trans
     (by decide),
   C4_extract_missing_path.2.2.2.2.2 _ rfl rfl⟩

/-- C5: on a payload with a present attribute sequence,
`get_product_review` renders, per attribute, the normalized title, a
colon-space, the normalized values joined by single spaces, and a newline,
concatenates the blocks in source order and strips the result; the spec's
Color/Red/Blue example evaluates to `("hi", "Color: Red Blue")`. -/
theorem C5_extract_attributes :
    (∀ (d : String) (attrs : List (String × List String)),
      get_product_review (reviewPayloadFull d attrs) =
        (clean_text d, pyStrip (renderAttrBlocks attrs))) ∧
    get_product_review (reviewPayloadFull "  hi  " [("Color", ["Red", "Blue"])]) =
      ("hi", "Color: Red Blue") := by
  constructor
  · intro d attrs
    simp [get_product_review, reviewBody, reviewPayloadFull, reviewPayload,
      dictGet, lookupField, asStr, pyContainsKey, pyIndex, pyIter,
      attrLoop_encoded]
  · decide

/-! ### Shape invariants of extracted fields -/

theorem noZWNJ_append {a b : String} (ha : noZWNJ a = true)
    (hb : noZWNJ b = true) : noZWNJ (a ++ b) = true := by
  simp only [noZWNJ, String.data_append, List.all_append, Bool.and_eq_true]
  exact ⟨ha, hb⟩

theorem noZWNJ_joinBySpace :
    ∀ l : List String, (∀ v ∈ l, noZWNJ v = true) →
      noZWNJ (joinBySpace l) = true
  | [] => fun _ => rfl
  | [v] => fun h => by simpa [joinBySpace] using h v (by simp)
  | v :: v2 :: rest => fun h => by
    rw [joinBySpace]
    exact noZWNJ_append (noZWNJ_append (h v (by simp)) (by decide))
      (noZWNJ_joinBySpace (v2 :: rest) (fun u hu => h u (by simp [hu])))

theorem attrLoop_noZWNJ :
    ∀ (items : List Json) (acc out : String), noZWNJ acc = true →
      attrLoop items acc = some out → noZWNJ out = true := by
  intro items
  induction items with
  | nil =>
    intro acc out hacc h
    rw [attrLoop] at h
    cases h
    exact hacc
  | cons attr rest ih =>
    intro acc out hacc h
    rw [attrLoop] at h
    split at h
    · exact absurd h (by simp)
    · split at h
      · exact absurd h (by simp)
      · split at h
        · exact absurd h (by simp)
        · split at h
          · exact absurd h (by simp)
          · split at h
            · exact absurd h (by simp)
            · apply ih _ out _ h
              apply noZWNJ_append
              apply noZWNJ_append
              apply noZWNJ_append
              apply noZWNJ_append hacc
              · exact clean_text_noZWNJ _
              · decide
              · apply noZWNJ_joinBySpace
                intro v hv
                rw [List.mem_map] at hv
                obtain ⟨u, _, rfl⟩ := hv
                exact clean_text_noZWNJ u
              · decide

theorem stripWS_eq_stripR (l : List Char) :
    stripWS l = stripR (l.dropWhile isPySpace) := rfl

theorem stripWS_headNonWS (l : List Char) : headNonWS (stripWS l) = true := by
  rw [stripWS_eq_stripR]
  cases hu : l.dropWhile isPySpace with
  | nil => rfl
  | cons c u2 =>
    rw [stripR_cons_nonws (dropWhile_head_nonsat hu)]
    simp [headNonWS, dropWhile_head_nonsat hu]

theorem stripWS_lastNonWS (l : List Char) : lastNonWS (stripWS l) = true := by
  rw [lastNonWS, stripWS, List.reverse_reverse]
  cases hu : (l.dropWhile isPySpace).reverse.dropWhile isPySpace with
  | nil => rfl
  | cons c u2 => simp [headNonWS, dropWhile_head_nonsat hu]

theorem stripWS_subset (l : List Char) : stripWS l ⊆ l := by
  intro c hc
  rw [stripWS, List.mem_reverse] at hc
  have h2 := List.dropWhile_subset _ hc
  rw [List.mem_reverse] at h2
  exact List.dropWhile_subset _ h2

theorem pyStrip_noZWNJ {s : String} (h : noZWNJ s = true) :
    noZWNJ (pyStrip s) = true := by
  rw [noZWNJ, List.all_eq_true]
  intro c hc
  rw [noZWNJ, List.all_eq_true] at h
  exact h c (stripWS_subset _ hc)

theorem reviewBody_shape {j : Json} {pair : String × String}
    (h : reviewBody j = some pair) :
    ∃ s t, pair = (clean_text s, pyStrip t) ∧ noZWNJ t = true := by
  rw [reviewBody] at h
  split at h
  · exact absurd h (by simp)
  · split at h
    · exact absurd h (by simp)
    · split at h
      · exact absurd h (by simp)
      · split at h
        · exact absurd h (by simp)
        · split at h
          · exact absurd h (by simp)
          · split at h
            · exact absurd h (by simp)
            · rename_i res hres
              cases h
              refine ⟨_, _, rfl, ?_⟩
              split at hres
              · split at hres
                · exact absurd hres (by simp)
                · split at hres
                  · exact absurd hres (by simp)
                  · exact attrLoop_noZWNJ _ _ _ (by decide) hres
              · cases hres
                decide

/-- C9 counterexample: on a well-shaped payload whose attribute values
include a string that normalizes to the empty string, the attributes field
is `"T: x  y"`, which contains a run of two consecutive whitespace
characters — refuting the claim that the fields never contain such runs. -/
theorem C9_invariant_counterexample :
    (get_product_review payload9).2 = "T: x  y" ∧
    noWSRun (get_product_review payload9).2.data = false := by decide

/-- C9 amended: the extracted fields are never null and are `""` when the
source data is absent; both fields contain no zero-width non-joiner and no
leading or trailing whitespace; the description field additionally
contains no run of two or more consecutive whitespace characters (the
attributes field keeps the newline block separators and can contain
whitespace runs when a value normalizes to the empty string). -/
theorem C9_invariant_amended (j : Json) :
    noZWNJ (get_product_review j).1 = true ∧
    noWSRun (get_product_review j).1.data = true ∧
    headNonWS (get_product_review j).1.data = true ∧
    lastNonWS (get_product_review j).1.data = true ∧
    noZWNJ (get_product_review j).2 = true ∧
    headNonWS (get_product_review j).2.data = true ∧
    lastNonWS (get_product_review j).2.data = true := by
  rw [get_product_review]
  cases hb : reviewBody j with
  | none => decide
  | some pair =>
    obtain ⟨s, t, rfl, hnz⟩ := reviewBody_shape hb
    exact ⟨clean_text_noZWNJ s, clean_text_noWSRun s, clean_text_headNonWS s,
      clean_text_lastNonWS s, pyStrip_noZWNJ hnz,
      stripWS_headNonWS t.data, stripWS_lastNonWS t.data⟩

/-! ### Fetch failure handling -/

theorem productsFromOutcome_none {o : NetOutcome} (h : listingFailure o = true) :
    productsFromOutcome o = none := by
  cases o with
  | transportError => rfl
  | response st body =>
    cases body with
    | none =>
      cases hr : raisesForStatus st <;> simp [productsFromOutcome, hr]
    | some j =>
      rw [listingFailure] at h
      cases hr : raisesForStatus st with
      | true => simp [productsFromOutcome, hr]
      | false =>
        rw [hr, Bool.false_or] at h
        cases hd : pyIndex j "data" with
        | none => simp [productsFromOutcome, hr, hd]
        | some d =>
          rw [hd] at h
          simp [productsFromOutcome, hr, hd, Option.isNone_iff_eq_none.mp h]

theorem detailFromOutcome_none {o : NetOutcome} (h : detailFailure o = true) :
    detailFromOutcome o = none := by
  cases o with
  | transportError => rfl
  | response st body =>
    rw [detailFailure] at h
    cases hr : raisesForStatus st with
    | true => simp [detailFromOutcome, hr]
    | false =>
      rw [hr, Bool.false_or] at h
      simp [detailFromOutcome, hr, Option.isNone_iff_eq_none.mp h]

/-- C6 counterexample: a response with status 300 — a non-2xx status, but
outside the 400..599 range that `raise_for_status` rejects — and a valid
listing body makes `get_products` return the (non-empty) products, not the
empty sequence, refuting the claim for all non-2xx statuses. -/
theorem C6_fetch_failure_counterexample :
    (Crawler.init cfgEx 1).get_products env300 "mobile" "samsung" 1 =
      ([Event.fetchListing "https://x/mobile/samsung/?page=1"],
        Json.arr [Json.obj [("id", Json.num 5)]]) ∧
    Json.arr [Json.obj [("id", Json.num 5)]] ≠ Json.arr [] := by
  constructor
  · rfl
  · simp

/-- C6 amended: for every transport error, HTTP status in 400..599, or
malformed/missing-path response body, `get_products` returns the empty
sequence and `get_product_details` returns the empty mapping; the failure
is logged and absorbed, never raised to the caller. -/
theorem C6_fetch_failure_amended :
    (∀ (c : Crawler) (env : String → NetOutcome) (category brand : String)
        (page : Nat),
      listingFailure (env (listingUrlFor c category brand page)) = true →
      c.get_products env category brand page =
        ([Event.fetchListing (listingUrlFor c category brand page),
          Event.logListingError], Json.arr [])) ∧
    (∀ (c : Crawler) (env : String → NetOutcome) (pid : Json),
      detailFailure (env (detailUrlFor c pid)) = true →
      c.get_product_details env pid =
        ([Event.fetchDetail (detailUrlFor c pid),
          Event.logDetailError (pyStr pid)], Json.obj [])) := by
  constructor
  · intro c env category brand page h
    simp [Crawler.get_products, productsFromOutcome_none h]
  · intro c env pid h
    simp [Crawler.get_product_details, detailFromOutcome_none h]

/-- Witness for the amended C6: a transport error, a 404 with a valid
body, an invalid body, and a body missing `data.products` all yield the
empty list from `get_products`; a transport error and a 500 yield the
empty mapping from `get_product_details`. -/
theorem C6_fetch_failure_amended_witness :
    (Crawler.init cfgEx 1).get_products (fun _ => NetOutcome.transportError)
      "mobile" "samsung" 1 =
      ([Event.fetchListing "https://x/mobile/samsung/?page=1",
        Event.logListingError], Json.arr []) ∧
    (Crawler.init cfgEx 1).get_products
      (fun _ => NetOutcome.response 404 (some (listingBody [Json.obj []])))
      "mobile" "samsung" 1 =
      ([Event.fetchListing "https://x/mobile/samsung/?page=1",
        Event.logListingError], Json.arr []) ∧
    (Crawler.init cfgEx 1).get_products (fun _ => NetOutcome.response 200 none)
      "mobile" "samsung" 1 =
      ([Event.fetchListing "https://x/mobile/samsung/?page=1",
        Event.logListingError], Json.arr []) ∧
    (Crawler.init cfgEx 1).get_products
      (fun _ => NetOutcome.response 200 (some (Json.obj [])))
      "mobile" "samsung" 1 =
      ([Event.fetchListing "https://x/mobile/samsung/?page=1",
        Event.logListingError], Json.arr []) ∧
    (Crawler.init cfgEx 1).get_product_details
      (fun _ => NetOutcome.transportError) (Json.num 7) =
      ([Event.fetchDetail "https://x/product/7/", Event.logDetailError "7"],
        Json.obj []) ∧
    (Crawler.init cfgEx 1).get_product_details
      (fun _ => NetOutcome.response 500 (some (Json.obj []))) (Json.num 7) =
      ([Event.fetchDetail "https://x/product/7/", Event.logDetailError "7"],
        Json.obj []) :=
  ⟨(C6_fetch_failure_amended.1 (Crawler.init cfgEx 1)
      (fun _ => NetOutcome.transportError) "mobile" "samsung" 1
      (by decide)).trans rfl,
   (C6_fetch_failure_amended.1 (Crawler.init cfgEx 1)
      (fun _ => NetOutcome.response 404 (some (listingBody [Json.obj []])))
      "mobile" "samsung" 1 (by decide)).trans rfl,
   (C6_fetch_failure_amended.1 (Crawler.init cfgEx 1)
      (fun _ => NetOutcome.response 200 none) "mobile" "samsung" 1
      (by decide)).trans rfl,
   (C6_fetch_failure_amended.1 (Crawler.init cfgEx 1)
      (fun _ => NetOutcome.response 200 (some (Json.obj []))) "mobile"
      "samsung" 1 (by decide)).trans rfl,
   (C6_fetch_failure_amended.2 (Crawler.init cfgEx 1)
      (fun _ => NetOutcome.transportError) (Json.num 7) (by decide)).trans rfl,
   (C6_fetch_failure_amended.2 (Crawler.init cfgEx 1)
      (fun _ => NetOutcome.response 500 (some (Json.obj []))) (Json.num 7)
      (by decide)).trans rfl⟩

/-! ### The orchestrator run -/

theorem isObj_exists {p : Json} (hp : Json.isObj p = true) :
    ∃ fs, p = Json.obj fs := by
  cases p <;> simp_all [Json.isObj]

theorem processProducts_all_obj (c : Crawler) (env : String → NetOutcome) :
    ∀ l : List Json, l.all Json.isObj = true →
      processProducts c env l = (allProductsTrace c env l, true) := by
  intro l
  induction l with
  | nil => intro _; rfl
  | cons p rest ih =>
    intro h
    rw [List.all_cons, Bool.and_eq_true] at h
    obtain ⟨hp, hrest⟩ := h
    obtain ⟨fs, rfl⟩ := isObj_exists hp
    by_cases ht : pyTruthy ((lookupField fs "id").getD Json.null) = true
    · simp [processProducts, allProductsTrace, perProductEvents, dictGet,
        ht, ih hrest]
    · simp [processProducts, allProductsTrace, perProductEvents, dictGet,
        ht, ih hrest]

theorem processProducts_raise (c : Crawler) (env : String → NetOutcome) :
    ∀ good : List Json, good.all Json.isObj = true →
      ∀ bad : Json, Json.isObj bad = false → ∀ rest : List Json,
      processProducts c env (good ++ bad :: rest) =
        (allProductsTrace c env good, false) := by
  intro good
  induction good with
  | nil =>
    intro _ bad hb rest
    cases bad <;> simp_all [processProducts, dictGet, allProductsTrace, Json.isObj]
  | cons p grest ih =>
    intro h bad hb rest
    rw [List.all_cons, Bool.and_eq_true] at h
    obtain ⟨hp, hrest⟩ := h
    obtain ⟨fs, rfl⟩ := isObj_exists hp
    by_cases ht : pyTruthy ((lookupField fs "id").getD Json.null) = true
    · simp [processProducts, allProductsTrace, perProductEvents, dictGet,
        ht, ih hrest bad hb rest]
    · simp [processProducts, allProductsTrace, perProductEvents, dictGet,
        ht, ih hrest bad hb rest]

theorem run_trace (c : Crawler) (env : String → NetOutcome)
    (products : List Json)
    (henv : env (listingUrlFor c c.category c.brand 1) =
      NetOutcome.response 200 (some (listingBody products))) :
    c.run env =
      Event.logStart c.page ::
      Event.fetchListing (listingUrlFor c c.category c.brand 1) ::
      Event.logCount products.length c.page ::
      ((processProducts c env products).1 ++
        (if (processProducts c env products).2 then []
         else [Event.logRunError c.page]) ++
        [Event.logComplete c.page]) := by
  simp [Crawler.run, Crawler.get_products, henv, productsFromOutcome,
    raisesForStatus, listingBody, pyIndex, lookupField, pyLen, pyIter]

theorem run_getLast (c : Crawler) (env : String → NetOutcome) :
    (c.run env).getLast? = some (Event.logComplete c.page) := by
  rw [Crawler.run, List.getLast?_concat]

/-- C1 (the page-number slip, evaluated): an orchestrator constructed with
page 2 issues the page-1 listing URL — identical to the URL issued by a
page-1 instance — even though its `page` field is 2, because `run` calls
`get_products` without the page argument. -/
theorem C1_page_number_eval :
    listingRequests ((Crawler.init cfgEx 2).run (listingEnv [])) =
      ["https://x/mobile/samsung/?page=1"] ∧
    listingRequests ((Crawler.init cfgEx 1).run (listingEnv [])) =
      ["https://x/mobile/samsung/?page=1"] ∧
    (Crawler.init cfgEx 2).page = 2 := by decide

/-- C7 counterexample: in a listing where every product has an `id` field
but the second one's is `0`, the second product is skipped (two detail
fetches and two persists, not three), refuting "every product with an id
field is processed exactly once". -/
theorem C7_processing_counterexample :
    (Crawler.init cfgEx 1).run (listingEnv products7) =
      [Event.logStart 1, Event.fetchListing "https://x/mobile/samsung/?page=1",
       Event.logCount 3 1,
       Event.fetchDetail "https://x/product/1/", Event.persist "" "",
       Event.fetchDetail "https://x/product/2/", Event.persist "" "",
       Event.logComplete 1] ∧
    (lookupField [("id", Json.num 0)] "id").isSome = true ∧
    detailRequests ((Crawler.init cfgEx 1).run (listingEnv products7)) =
      ["https://x/product/1/", "https://x/product/2/"] := by decide

/-- C7 amended: over a listing of dict products, every product whose `id`
is missing or falsy is silently skipped, and every product with a truthy
`id` is detail-fetched and persisted exactly once, in listing order — the
run's trace is exactly the per-product traces concatenated in listing
order between the count log and the completion log. -/
theorem C7_processing_amended (c : Crawler) (env : String → NetOutcome)
    (products : List Json)
    (hobj : products.all Json.isObj = true)
    (henv : env (listingUrlFor c c.category c.brand 1) =
      NetOutcome.response 200 (some (listingBody products))) :
    c.run env =
      Event.logStart c.page ::
      Event.fetchListing (listingUrlFor c c.category c.brand 1) ::
      Event.logCount products.length c.page ::
      (allProductsTrace c env products ++ [Event.logComplete c.page]) := by
  rw [run_trace c env products henv, processProducts_all_obj c env products hobj]
  simp

/-- Witness for the amended C7: the spec's example listing (three
products, the second lacking `id`) — products 1 and 3 each detail-fetched
and persisted exactly once, in order; product 2 skipped. -/
theorem C7_processing_amended_witness :
    (Crawler.init cfgEx 1).run (listingEnv productsSpec) =
      [Event.logStart 1, Event.fetchListing "https://x/mobile/samsung/?page=1",
       Event.logCount 3 1,
       Event.fetchDetail "https://x/product/1/", Event.persist "" "",
       Event.fetchDetail "https://x/product/2/", Event.persist "" "",
       Event.logComplete 1] ∧
    List.all productsSpec Json.isObj = true :=
  ⟨(C7_processing_amended (Crawler.init cfgEx 1) (listingEnv productsSpec)
      productsSpec (by decide) rfl).trans (by decide), by decide⟩

/-- C8: every run's last logged event is the completion message with the
instance's page (success or caught exception); and when a product in the
loop raises (here: a non-dict product, on which `product.get("id")`
raises), the exception is caught by the single handler enclosing the whole
loop: the products before it keep their detail-fetch and persist events,
no later product is processed, the error is logged with the page number,
and the completion message still follows. -/
theorem C8_exception_handling :
    (∀ (c : Crawler) (env : String → NetOutcome),
      (c.run env).getLast? = some (Event.logComplete c.page)) ∧
    (∀ (c : Crawler) (env : String → NetOutcome) (good : List Json)
        (bad : Json) (rest : List Json),
      good.all Json.isObj = true → Json.isObj bad = false →
      env (listingUrlFor c c.category c.brand 1) =
        NetOutcome.response 200 (some (listingBody (good ++ bad :: rest))) →
      c.run env =
        Event.logStart c.page ::
        Event.fetchListing (listingUrlFor c c.category c.brand 1) ::
        Event.logCount (good ++ bad :: rest).length c.page ::
        (allProductsTrace c env good ++
          [Event.logRunError c.page, Event.logComplete c.page])) := by
  constructor
  · exact run_getLast
  · intro c env good bad rest hg hb henv
    rw [run_trace c env _ henv, processProducts_raise c env good hg bad hb rest]
    simp

/-- Witness for C8: a 3-product listing whose second element is a plain
string — product 1 is fetched and persisted, the loop then raises, the
error is logged with the page, product 3 is never processed, and the
completion message is still the last event. -/
theorem C8_exception_handling_witness :
    (Crawler.init cfgEx 1).run (listingEnv products8) =
      [Event.logStart 1, Event.fetchListing "https://x/mobile/samsung/?page=1",
       Event.logCount 3 1,
       Event.fetchDetail "https://x/product/1/", Event.persist "" "",
       Event.logRunError 1, Event.logComplete 1] ∧
    ((Crawler.init cfgEx 1).run (listingEnv products8)).getLast? =
      some (Event.logComplete 1) :=
  ⟨(C8_exception_handling.2 (Crawler.init cfgEx 1) (listingEnv products8)
      [Json.obj [("id", Json.num 1)]] (Json.str "oops")
      [Json.obj [("id", Json.num 2)]] (by decide) (by decide) rfl).trans
      (by decide),
   C8_exception_handling.1 (Crawler.init cfgEx 1) (listingEnv products8)⟩

/-- C10: the orchestrator's identifier check is a falsiness test: a dict
product whose `id` is present but falsy (or absent, giving the falsy
default `None`) is processed exactly like no product at all — the loop
over it equals the loop over the remaining products, with no detail fetch
and no persist for it. -/
theorem C10_falsy_id_skipped (c : Crawler) (env : String → NetOutcome)
    (fs : List (String × Json)) (rest : List Json)
    (h : pyTruthy ((lookupField fs "id").getD Json.null) = false) :
    processProducts c env (Json.obj fs :: rest) = processProducts c env rest := by
  simp [processProducts, dictGet, h]

/-- Witness for C10: products with `id` equal to `0`, `""`, `None` and
`False`, and a product with no `id` field, each produce no events. -/
theorem C10_falsy_id_skipped_witness :
    processProducts (Crawler.init cfgEx 1) (listingEnv [])
      [Json.obj [("id", Json.num 0)]] = ([], true) ∧
    processProducts (Crawler.init cfgEx 1) (listingEnv [])
      [Json.obj [("id", Json.str "")]] = ([], true) ∧
    processProducts (Crawler.init cfgEx 1) (listingEnv [])
      [Json.obj [("id", Json.null)]] = ([], true) ∧
    processProducts (Crawler.init cfgEx 1) (listingEnv [])
      [Json.obj [("id", Json.bool false)]] = ([], true) ∧
    processProducts (Crawler.init cfgEx 1) (listingEnv [])
      [Json.obj []] = ([], true) :=
  ⟨(C10_falsy_id_skipped _ _ _ _ (by decide)).trans rfl,
   (C10_falsy_id_skipped _ _ _ _ (by decide)).trans rfl,
   (C10_falsy_id_skipped _ _ _ _ (by decide)).trans rfl,
   (C10_falsy_id_skipped _ _ _ _ (by decide)).trans rfl,
   (C10_falsy_id_skipped _ _ _ _ (by decide)).trans rfl⟩

end DigikalaBot
